import Mathlib

set_option maxRecDepth 10000

/-
Shallow embedding of the Modbus TCP client (Go package modbus).

The client state (TCPClient) is explicit; network effects are supplied by an
oracle record (NetInput) that decides whether the dial, deadline setting and
write succeed and which bytes each read delivers.  Machine integers are
embedded as Nat with explicit reduction modulo 2^64 (uint64), 2^32 (uint32),
2^16 (uint16) and 256 (byte) exactly where the Go code wraps.  The fixed
260-byte request/response buffer is a List Nat of bytes.
-/

namespace Modbus

/- ## Byte-buffer primitives (Go encoding/binary, big-endian) -/

/-- One byte read from a buffer; 0 when out of range (Go indexing is always
in range here because the array is fixed at 260 bytes). -/
def getByte (l : List Nat) (i : Nat) : Nat := l.getD i 0

/-- Go binary.BigEndian.Uint16. -/
def getU16 (l : List Nat) (i : Nat) : Nat :=
  (getByte l i <<< 8) ||| getByte l (i + 1)

/-- Go binary.BigEndian.Uint32. -/
def getU32 (l : List Nat) (i : Nat) : Nat :=
  (getByte l i <<< 24) ||| (getByte l (i + 1) <<< 16) |||
  (getByte l (i + 2) <<< 8) ||| getByte l (i + 3)

/-- Go binary.BigEndian.Uint64. -/
def getU64 (l : List Nat) (i : Nat) : Nat :=
  (getByte l i <<< 56) ||| (getByte l (i + 1) <<< 48) |||
  (getByte l (i + 2) <<< 40) ||| (getByte l (i + 3) <<< 32) |||
  (getByte l (i + 4) <<< 24) ||| (getByte l (i + 5) <<< 16) |||
  (getByte l (i + 6) <<< 8) ||| getByte l (i + 7)

/-- The bytes Go binary.BigEndian.PutUint16 stores. -/
def u16be (x : Nat) : List Nat := [(x >>> 8) % 256, x % 256]

/-- The bytes Go binary.BigEndian.PutUint32 stores. -/
def u32be (x : Nat) : List Nat :=
  [(x >>> 24) % 256, (x >>> 16) % 256, (x >>> 8) % 256, x % 256]

/-- The bytes Go binary.BigEndian.PutUint64 stores. -/
def u64be (x : Nat) : List Nat :=
  [(x >>> 56) % 256, (x >>> 48) % 256, (x >>> 40) % 256, (x >>> 32) % 256,
   (x >>> 24) % 256, (x >>> 16) % 256, (x >>> 8) % 256, x % 256]

/-- Overwrite bytes of the fixed buffer starting at offset i (a Go copy or
sub-slice store into buf[i:]); writes beyond the end of the list vanish,
which never happens on the 260-byte buffer. -/
def writeBytes : List Nat → Nat → List Nat → List Nat
  | l, _, [] => l
  | l, i, b :: bs => writeBytes (l.set i b) (i + 1) bs

/- ## Constants of the source -/

/-- Go: len(TCPClient.buf) = 7 + 253. -/
def bufCap : Nat := 7 + 253

/-- Go const errorFlag = 0x80. -/
def errorFlag : Nat := 0x80

/-- Go: const sizeMask = 0xffff << 16 (in sendAndReceive). -/
def sizeMask : Nat := 0xffff <<< 16

/-- The uint64 complement of sizeMask: x &&& notSizeMask embeds the Go
expression x &^ sizeMask on values below 2^64. -/
def notSizeMask : Nat := 0xffffffff0000ffff

/-- Go const readInputRegs = 0x04. -/
def readInputRegsFC : Nat := 0x04

/-- Go const readHoldRegs = 0x03. -/
def readHoldRegsFC : Nat := 0x03

/-- Go const writeReg = 0x06. -/
def writeRegFC : Nat := 0x06

/-- Go const writeRegs = 0x10. -/
def writeRegsFC : Nat := 0x10

/- ## Errors -/

/-- The error values an I/O primitive of the transport can produce
(package io of Go): end-of-stream, premature end-of-stream, or anything
else. -/
inductive IOErr where
  | eof
  | unexpectedEOF
  | other
  deriving DecidableEq

/-- The errors of the client, one constructor per distinct error value the
source constructs (modbus.go and the TCP client file). -/
inductive MbError where
  /-- net.Dialer.Dial or trimTCPConn failed inside ensureConn. -/
  | dialFail
  /-- "timeout on Modbus connection needed" (SetDeadline failed). -/
  | deadlineFail
  /-- "Modbus request submission" (Conn.Write failed). -/
  | writeFail
  /-- "Modbus response unavailable" (io.ReadAtLeast failed). -/
  | respUnavailable
  /-- errFrameFit = "Modbus payload does not match frame size". -/
  | frameFit
  /-- Exception(code): a typed Modbus exception response. -/
  | exception (code : Nat)
  /-- "Modbus response frame … does not match request frame …". -/
  | frameMismatch
  /-- "Modbus response reception exceeds frame length". -/
  | recvExceedsFrame
  /-- "Modbus frame size exceeds reponse [PDU] limit". -/
  | frameTooBig
  /-- "Modbus response frame incomplete: %w" wrapping an I/O error. -/
  | frameIncomplete (inner : IOErr)
  /-- ErrLimit = "Modbus value count exceeds protocol limit". -/
  | limit
  /-- errAddrMatch. -/
  | addrMatch
  /-- errValueMatch. -/
  | valueMatch
  /-- errWriteNMatch. -/
  | writeNMatch
  /-- fmt.Errorf in readNRegs: a response payload of the wrong byte count
  for the requested register count. -/
  | payloadSize (gotBytes : Nat) (nRegs : Nat)
  /-- An error returned by Conn.Close. -/
  | connCloseFail
  /-- errors.Join of a cause with a Conn.Close error (inside fail). -/
  | joined (cause : MbError) (closeErr : MbError)
  deriving DecidableEq

/- ## Client state and network oracle -/

/-- The TCPClient state.  buf is the fixed 260-byte scratch buffer; connOpen
models whether the embedded net.Conn is non-nil; txTimeout, txN, fragN and
unitID model TxTimeout (as an abstract duration count), TxN, FragN and
UnitID.  RemoteAddr only feeds the dial and is absorbed by the oracle. -/
structure TCPClient where
  buf : List Nat
  connOpen : Bool
  txTimeout : Nat
  txN : Nat
  fragN : Nat
  unitID : Nat
  deriving DecidableEq

/-- The network oracle for one operation: whether dialing (including the
trimTCPConn tuning), SetDeadline and Conn.Write succeed, the bytes the
first io.ReadAtLeast call delivers (an error is reported exactly when
fewer than 9 arrive before the stream ends), the outcome and bytes of the
fragmentation io.ReadFull call, and whether Conn.Close itself errors. -/
structure NetInput where
  dialOK : Bool
  deadlineOK : Bool
  writeOK : Bool
  firstRead : List Nat
  contReadErr : Option IOErr
  contRead : List Nat
  closeErr : Bool
  deriving DecidableEq

/- ## Connection manager -/

/-- Go: Close — close and zero the connection, if any. -/
def Close (c : TCPClient) (closeErr : Bool) : TCPClient × Option MbError :=
  if c.connOpen = false then (c, none)
  else ({ c with connOpen := false },
        if closeErr then some .connCloseFail else none)

/-- Go: fail — fail the connection with a reset. -/
def fail (c : TCPClient) (cause : MbError) (closeErr : Bool) :
    TCPClient × MbError :=
  match Close c closeErr with
  | (c1, none) => (c1, cause)
  | (c1, some e) => (c1, .joined cause e)

/-- Go: ensureConn — creates a connection when not connected; a dial or
tuning failure leaves Conn nil and returns the error. -/
def ensureConn (c : TCPClient) (dialOK : Bool) : TCPClient × Option MbError :=
  if c.connOpen then (c, none)
  else if dialOK then ({ c with connOpen := true }, none)
  else (c, some .dialFail)

/- ## Transaction sequencer -/

/-- The outcome of sendAndReceive: the final client state, the byte count
readN of the response held in buf, the request bytes submitted to
Conn.Write when the code reached that call, and the error, if any. -/
structure SendResult where
  client : TCPClient
  readN : Nat
  sent : Option (List Nat)
  err : Option MbError
  deriving DecidableEq

/-- Go: the MBAP request header composed in sendAndReceive with four
uint64 or-assignments: TxN shifted into the top 16 bits, the size of what
follows the first 6 bytes, the unit identifier and the function code. -/
def mkReqHead (txN reqLen unitID funcCode : Nat) : Nat :=
  (((txN <<< 48) % 2 ^ 64) |||
   ((((reqLen + (2 ^ 64 - 6)) % 2 ^ 64) <<< 16) % 2 ^ 64)) |||
  ((unitID % 256) <<< 8) ||| (funcCode % 256)

/-- Go: the tail of sendAndReceive after a regular (non-exception) response
header matched: reconcile the declared frame length against the bytes read
so far, reading the remainder of a fragmented frame when needed. -/
def recvRest (c : TCPClient) (net : NetInput) (req : List Nat)
    (readN : Nat) (resHead : Nat) : SendResult :=
  let remainLen := (resHead >>> 16) &&& 0xffff
  let expectedEnd := remainLen + 6
  if expectedEnd = readN then
    -- happy flow
    { client := c, readN := readN, sent := some req, err := none }
  else if expectedEnd < readN then
    let r := fail c .recvExceedsFrame net.closeErr
    { client := r.1, readN := readN, sent := some req, err := some r.2 }
  else if expectedEnd > c.buf.length then
    let r := fail c .frameTooBig net.closeErr
    { client := r.1, readN := readN, sent := some req, err := some r.2 }
  else
    -- packet fragmentation should be a rare occurrence
    let c := { c with fragN := (c.fragN + 1) % 2 ^ 64 }
    match net.contReadErr with
    | some e =>
        let e1 := if e = .eof then IOErr.unexpectedEOF else e
        let r := fail c (.frameIncomplete e1) net.closeErr
        { client := r.1, readN := readN, sent := some req, err := some r.2 }
    | none =>
        let bs := (net.contRead.take (expectedEnd - readN)).map (· % 256)
        let c := { c with buf := writeBytes c.buf readN bs }
        { client := c, readN := expectedEnd, sent := some req, err := none }

/-- Go: sendAndReceive — writes the frame header plus function code into
buf[:8], submits req (which aliases buf[:reqLen]) and receives, validates
and reassembles the response.  The deferred deadline reset only logs, so
it is not modelled. -/
def sendAndReceive (c : TCPClient) (net : NetInput) (reqLen funcCode : Nat) :
    SendResult :=
  match ensureConn c net.dialOK with
  | (c0, some e) => { client := c0, readN := 0, sent := none, err := some e }
  | (c0, none) =>
    let c1 := { c0 with txN := (c0.txN + 1) % 2 ^ 64 }
    if c1.txTimeout ≠ 0 ∧ net.deadlineOK = false then
      let r := fail c1 .deadlineFail net.closeErr
      { client := r.1, readN := 0, sent := none, err := some r.2 }
    else
      let reqHead := mkReqHead c1.txN reqLen c1.unitID funcCode
      let c2 := { c1 with buf := writeBytes c1.buf 0 (u64be reqHead) }
      let req := c2.buf.take reqLen
      if net.writeOK = false then
        let r := fail c2 .writeFail net.closeErr
        { client := r.1, readN := 0, sent := some req, err := some r.2 }
      else
        let bs := (net.firstRead.take bufCap).map (· % 256)
        let c3 := { c2 with buf := writeBytes c2.buf 0 bs }
        let readN := bs.length
        if readN < 9 then
          let r := fail c3 .respUnavailable net.closeErr
          { client := r.1, readN := readN, sent := some req, err := some r.2 }
        else
          let resHead := getU64 c3.buf 0
          if resHead &&& notSizeMask = reqHead &&& notSizeMask then
            -- regular response
            recvRest c3 net req readN resHead
          else if resHead &&& notSizeMask =
              (reqHead &&& notSizeMask) ||| errorFlag then
            if readN ≠ 9 then
              let r := fail c3 .frameFit net.closeErr
              { client := r.1, readN := readN, sent := some req,
                err := some r.2 }
            else
              { client := c3, readN := readN, sent := some req,
                err := some (.exception (getByte c3.buf 8)) }
          else
            let r := fail c3 .frameMismatch net.closeErr
            { client := r.1, readN := readN, sent := some req,
              err := some r.2 }

/- ## Register operations -/

/-- Go: the request word uint32(startAddr)<<16 | uint32(n) of readNRegs,
with startAddr a uint16 and n an int already known to be in 1..125. -/
def readReqOrder (startAddr n : Nat) : Nat :=
  ((startAddr % 2 ^ 16) <<< 16) ||| (n % 2 ^ 32)

/-- Go: readNRegs — stages the start address and count, runs the
transaction and validates the response payload size. -/
def readNRegs (c : TCPClient) (net : NetInput) (n : Nat)
    (startAddr : Nat) (funcCode : Nat) : SendResult :=
  let c := { c with buf := writeBytes c.buf 8 (u32be (readReqOrder startAddr n)) }
  let r := sendAndReceive c net 12 funcCode
  match r.err with
  | some _ => r
  | none =>
    if getByte r.client.buf 8 ≠ n * 2 then
      { r with err := some (.payloadSize (getByte r.client.buf 8) n) }
    else if r.readN ≠ 9 + n * 2 then
      { r with err := some .frameFit }
    else r

/-- Go: readReg — one register; on success the value is the big-endian
word at buf[9:11]. -/
def readReg (c : TCPClient) (net : NetInput) (addr : Nat) (funcCode : Nat) :
    TCPClient × Nat × Option MbError :=
  let r := readNRegs c net 1 addr funcCode
  match r.err with
  | some e => (r.client, 0, some e)
  | none => (r.client, getU16 r.client.buf 9, none)

/-- Go: ReadInputReg. -/
def ReadInputReg (c : TCPClient) (net : NetInput) (addr : Nat) :
    TCPClient × Nat × Option MbError :=
  readReg c net addr readInputRegsFC

/-- Go: ReadHoldReg. -/
def ReadHoldReg (c : TCPClient) (net : NetInput) (addr : Nat) :
    TCPClient × Nat × Option MbError :=
  readReg c net addr readHoldRegsFC

/-- Go: readRegs — reads len(regs) registers into the caller's buffer,
returned here as the middle component. -/
def readRegs (c : TCPClient) (net : NetInput) (regs : List Nat)
    (startAddr : Nat) (funcCode : Nat) :
    TCPClient × List Nat × Option MbError :=
  if regs.length = 0 then (c, regs, none)  -- allowed
  else if regs.length > 125 then (c, regs, some .limit)
  else
    let r := readNRegs c net regs.length startAddr funcCode
    match r.err with
    | some e => (r.client, regs, some e)
    | none =>
      let out := (List.range regs.length).map
        (fun i => getU16 r.client.buf (9 + i * 2))
      (r.client, out, none)

/-- Go: ReadInputRegs. -/
def ReadInputRegs (c : TCPClient) (net : NetInput) (regs : List Nat)
    (startAddr : Nat) : TCPClient × List Nat × Option MbError :=
  readRegs c net regs startAddr readInputRegsFC

/-- Go: ReadHoldRegs. -/
def ReadHoldRegs (c : TCPClient) (net : NetInput) (regs : List Nat)
    (startAddr : Nat) : TCPClient × List Nat × Option MbError :=
  readRegs c net regs startAddr readHoldRegsFC

/-- Go: readNRegSlice — n is a Go int, hence signed. -/
def readNRegSlice (c : TCPClient) (net : NetInput) (n : Int)
    (startAddr : Nat) (funcCode : Nat) :
    TCPClient × Option (List Nat) × Option MbError :=
  if n < 1 then (c, none, none)  -- allowed
  else if n > 125 then (c, none, some .limit)
  else
    let r := readNRegs c net n.toNat startAddr funcCode
    match r.err with
    | some e => (r.client, none, some e)
    | none => (r.client, some ((r.client.buf.drop 9).take (n.toNat * 2)), none)

/-- Go: ReadNInputRegSlice. -/
def ReadNInputRegSlice (c : TCPClient) (net : NetInput) (n : Int)
    (startAddr : Nat) : TCPClient × Option (List Nat) × Option MbError :=
  readNRegSlice c net n startAddr readInputRegsFC

/-- Go: ReadNHoldRegSlice. -/
def ReadNHoldRegSlice (c : TCPClient) (net : NetInput) (n : Int)
    (startAddr : Nat) : TCPClient × Option (List Nat) × Option MbError :=
  readNRegSlice c net n startAddr readHoldRegsFC

/-- Go: the order word uint32(addr)<<16 | uint32(value) of WriteReg, both
halves uint16. -/
def writeRegOrder (addr value : Nat) : Nat :=
  ((addr % 2 ^ 16) <<< 16) ||| (value % 2 ^ 16)

/-- Go: WriteReg — updates a single register and checks the echo. -/
def WriteReg (c : TCPClient) (net : NetInput) (addr value : Nat) :
    TCPClient × Option MbError :=
  let order := writeRegOrder addr value
  let c := { c with buf := writeBytes c.buf 8 (u32be order) }
  let r := sendAndReceive c net 12 writeRegFC
  match r.err with
  | some e => (r.client, some e)
  | none =>
    if r.readN ≠ 12 then (r.client, some .frameFit)
    else
      let did := getU32 r.client.buf 8
      if did ≠ order then
        if did >>> 16 ≠ order >>> 16 then (r.client, some .addrMatch)
        else (r.client, some .valueMatch)
      else (r.client, none)

/-- Go: the order word uint32(startAddr)<<16 | uint32(len(values)) of
WriteRegs. -/
def writeRegsOrder (startAddr nvals : Nat) : Nat :=
  ((startAddr % 2 ^ 16) <<< 16) ||| (nvals % 2 ^ 32)

/-- Go: WriteRegs — updates consecutive registers and checks the echo. -/
def WriteRegs (c : TCPClient) (net : NetInput) (startAddr : Nat)
    (values : List Nat) : TCPClient × Option MbError :=
  if values.length = 0 then (c, none)  -- allow
  else if values.length > 123 then (c, some .limit)
  else
    let order := writeRegsOrder startAddr values.length
    let c := { c with buf := writeBytes c.buf 8 (u32be order) }
    let c := { c with buf := c.buf.set 12 ((values.length * 2) % 256) }
    let c := { c with buf := writeBytes c.buf 13 ((values.map u16be).flatten) }
    let r := sendAndReceive c net (13 + 2 * values.length) writeRegsFC
    match r.err with
    | some e => (r.client, some e)
    | none =>
      if r.readN ≠ 12 then (r.client, some .frameFit)
      else
        let did := getU32 r.client.buf 8
        if did ≠ order then
          if did >>> 16 ≠ order >>> 16 then (r.client, some .addrMatch)
          else (r.client, some .writeNMatch)
        else (r.client, none)

/- ## General lemmas about the embedding -/

/-- An error produced through fail is the cause, possibly joined with a
Conn.Close error. -/
def errCause (e cause : MbError) : Prop :=
  e = cause ∨ e = .joined cause .connCloseFail

instance (e cause : MbError) : Decidable (errCause e cause) := by
  unfold errCause; infer_instance

theorem getByte_set (l : List Nat) (i k v : Nat) :
    getByte (l.set i v) k = if i = k ∧ k < l.length then v else getByte l k := by
  induction l generalizing i k with
  | nil => simp [getByte]
  | cons a l ih =>
    cases i with
    | zero =>
      cases k with
      | zero => simp [getByte]
      | succ k => simp [getByte]
    | succ i =>
      cases k with
      | zero => simp [getByte]
      | succ k =>
        simp only [List.set_cons_succ, getByte, List.getD_cons_succ]
        rw [← getByte, ← getByte, ih]
        simp only [List.length_cons]
        congr 1
        simp only [eq_iff_iff]
        omega

theorem length_writeBytes (bs : List Nat) (l : List Nat) (i : Nat) :
    (writeBytes l i bs).length = l.length := by
  induction bs generalizing l i with
  | nil => rfl
  | cons b bs ih => simp [writeBytes, ih]

theorem getByte_writeBytes (bs : List Nat) (l : List Nat) (i k : Nat) :
    getByte (writeBytes l i bs) k =
      if i ≤ k ∧ k < i + bs.length ∧ k < l.length then bs.getD (k - i) 0
      else getByte l k := by
  induction bs generalizing l i with
  | nil =>
    simp only [writeBytes, List.length_nil, Nat.add_zero]
    rw [if_neg (by omega)]
  | cons b bs ih =>
    simp only [writeBytes, List.length_cons]
    rw [ih, List.length_set, getByte_set]
    by_cases h1 : i + 1 ≤ k ∧ k < i + 1 + bs.length ∧ k < l.length
    · rw [if_pos h1, if_pos (⟨by omega, by omega, h1.2.2⟩ :
        i ≤ k ∧ k < i + (bs.length + 1) ∧ k < l.length)]
      have hk : k - i = (k - (i + 1)) + 1 := by omega
      rw [hk, List.getD_cons_succ]
    · rw [if_neg h1]
      by_cases h2 : i = k ∧ k < l.length
      · rw [if_pos h2, if_pos (⟨by omega, by omega, h2.2⟩ :
          i ≤ k ∧ k < i + (bs.length + 1) ∧ k < l.length)]
        have hk : k - i = 0 := by omega
        rw [hk, List.getD_cons_zero]
      · rw [if_neg h2, if_neg (by omega)]

theorem getByte_writeBytes_lt (l bs : List Nat) (k : Nat)
    (h1 : k < bs.length) (h2 : k < l.length) :
    getByte (writeBytes l 0 bs) k = getByte bs k := by
  rw [getByte_writeBytes, if_pos ⟨Nat.zero_le k, by omega, h2⟩]
  simp [getByte]

theorem getByte_take (l : List Nat) (n k : Nat) :
    getByte (l.take n) k = if k < n then getByte l k else 0 := by
  induction l generalizing n k with
  | nil => simp [getByte]
  | cons a l ih =>
    cases n with
    | zero => simp [getByte]
    | succ n =>
      cases k with
      | zero => simp [getByte]
      | succ k =>
        simp only [List.take_succ_cons, getByte, List.getD_cons_succ]
        rw [← getByte, ← getByte, ih]
        simp

theorem Close_fst_connOpen (c : TCPClient) (b : Bool) :
    (Close c b).1.connOpen = false := by
  unfold Close
  split <;> simp_all

theorem fail_client (c : TCPClient) (e : MbError) (b : Bool) :
    (fail c e b).1 = { c with connOpen := false } := by
  unfold fail Close
  rcases c with ⟨buf, co, tt, tx, fr, u⟩
  cases co <;> cases b <;> rfl

theorem fail_cause (c : TCPClient) (e : MbError) (b : Bool) :
    errCause (fail c e b).2 e := by
  unfold fail Close errCause
  rcases c with ⟨buf, co, tt, tx, fr, u⟩
  cases co <;> cases b <;> simp

theorem ensureConn_eq (c : TCPClient) (d : Bool)
    (h : c.connOpen = true ∨ d = true) :
    ensureConn c d = ({ c with connOpen := true }, none) := by
  unfold ensureConn
  rcases c with ⟨buf, co, tt, tx, fr, u⟩
  cases co <;> rcases h with h | h <;> simp_all

theorem lor_eq_add {b i : Nat} (hb : b < 2 ^ i) (a : Nat) :
    a * 2 ^ i ||| b = a * 2 ^ i + b := by
  rw [Nat.mul_comm a (2 ^ i)]
  exact (Nat.mul_add_lt_is_or hb a).symm

theorem mkReqHead_eq (txN reqLen unitID funcCode : Nat)
    (h6 : 6 ≤ reqLen) (h260 : reqLen ≤ 260) (hf : funcCode < 256) :
    mkReqHead txN reqLen unitID funcCode =
      (txN % 2 ^ 16) * 2 ^ 48 + (reqLen - 6) * 2 ^ 16 +
      (unitID % 256) * 2 ^ 8 + funcCode := by
  have hu : unitID % 256 < 256 := Nat.mod_lt _ (by norm_num)
  unfold mkReqHead
  have e2 : (reqLen + (2 ^ 64 - 6)) % 2 ^ 64 = reqLen - 6 := by omega
  rw [e2, Nat.shiftLeft_eq, Nat.shiftLeft_eq, Nat.shiftLeft_eq]
  have e1 : txN * 2 ^ 48 % 2 ^ 64 = (txN % 2 ^ 16) * 2 ^ 48 := by omega
  have e3 : (reqLen - 6) * 2 ^ 16 % 2 ^ 64 = (reqLen - 6) * 2 ^ 16 :=
    Nat.mod_eq_of_lt (by omega)
  rw [e1, e3, Nat.or_assoc, Nat.or_assoc,
      show funcCode % 256 = funcCode from Nat.mod_eq_of_lt hf,
      lor_eq_add (show funcCode < 2 ^ 8 by omega),
      lor_eq_add (show (unitID % 256) * 2 ^ 8 + funcCode < 2 ^ 16 by omega),
      lor_eq_add (show (reqLen - 6) * 2 ^ 16 +
        ((unitID % 256) * 2 ^ 8 + funcCode) < 2 ^ 48 by omega)]
  omega

theorem u64be_fields (t l u f : Nat) (ht : t < 2 ^ 16) (hl : l < 2 ^ 16)
    (hu : u < 2 ^ 8) (hf : f < 2 ^ 8) :
    u64be (t * 2 ^ 48 + l * 2 ^ 16 + u * 2 ^ 8 + f) =
      [t / 256, t % 256, 0, 0, l / 256, l % 256, u, f] := by
  simp only [u64be, Nat.shiftRight_eq_div_pow, List.cons.injEq, and_true]
  refine ⟨?_, ?_, ?_, ?_, ?_, ?_, ?_, ?_⟩ <;> omega

theorem sendAndReceive_tail (c : TCPClient) (net : NetInput)
    (reqLen funcCode : Nat)
    (hconn : c.connOpen = true ∨ net.dialOK = true)
    (hdl : c.txTimeout = 0 ∨ net.deadlineOK = true) :
    sendAndReceive c net reqLen funcCode =
      (let txN1 := (c.txN + 1) % 2 ^ 64
       let reqHead := mkReqHead txN1 reqLen c.unitID funcCode
       let c0 : TCPClient := { c with connOpen := true }
       let c1 : TCPClient := { c0 with txN := txN1 }
       let c2 : TCPClient := { c1 with buf := writeBytes c1.buf 0 (u64be reqHead) }
       let req := c2.buf.take reqLen
       if net.writeOK = false then
         let r := fail c2 .writeFail net.closeErr
         { client := r.1, readN := 0, sent := some req, err := some r.2 }
       else
       let bs := (net.firstRead.take bufCap).map (· % 256)
       let c3 : TCPClient := { c2 with buf := writeBytes c2.buf 0 bs }
       if bs.length < 9 then
         let r := fail c3 .respUnavailable net.closeErr
         { client := r.1, readN := bs.length, sent := some req,
           err := some r.2 }
       else
         let resHead := getU64 c3.buf 0
         if resHead &&& notSizeMask = reqHead &&& notSizeMask then
           recvRest c3 net req bs.length resHead
         else if resHead &&& notSizeMask =
             (reqHead &&& notSizeMask) ||| errorFlag then
           if bs.length ≠ 9 then
             let r := fail c3 .frameFit net.closeErr
             { client := r.1, readN := bs.length, sent := some req,
               err := some r.2 }
           else
             { client := c3, readN := bs.length, sent := some req,
               err := some (.exception (getByte c3.buf 8)) }
         else
           let r := fail c3 .frameMismatch net.closeErr
           { client := r.1, readN := bs.length, sent := some req,
             err := some r.2 }) := by
  unfold sendAndReceive
  rw [ensureConn_eq c net.dialOK hconn]
  dsimp only
  rw [if_neg (show ¬(c.txTimeout ≠ 0 ∧ net.deadlineOK = false) by
        rcases hdl with h | h <;> simp [h])]

theorem getU64_first (buf bs : List Nat) (h8 : 8 ≤ bs.length)
    (hl : bs.length ≤ buf.length) :
    getU64 (writeBytes buf 0 bs) 0 = getU64 bs 0 := by
  simp only [getU64, Nat.zero_add]
  rw [getByte_writeBytes_lt buf bs 0 (by omega) (by omega),
      getByte_writeBytes_lt buf bs 1 (by omega) (by omega),
      getByte_writeBytes_lt buf bs 2 (by omega) (by omega),
      getByte_writeBytes_lt buf bs 3 (by omega) (by omega),
      getByte_writeBytes_lt buf bs 4 (by omega) (by omega),
      getByte_writeBytes_lt buf bs 5 (by omega) (by omega),
      getByte_writeBytes_lt buf bs 6 (by omega) (by omega),
      getByte_writeBytes_lt buf bs 7 (by omega) (by omega)]

theorem recvRest_txN (c : TCPClient) (net : NetInput) (req : List Nat)
    (readN resHead : Nat) :
    (recvRest c net req readN resHead).client.txN = c.txN := by
  unfold recvRest
  dsimp only
  split_ifs with h1 h2 h3
  · rfl
  · simp [fail_client]
  · simp [fail_client]
  · rcases hcr : net.contReadErr with _ | e <;> simp [hcr, fail_client]

theorem recvRest_ok_connOpen (c : TCPClient) (net : NetInput)
    (req : List Nat) (readN resHead : Nat) :
    (recvRest c net req readN resHead).err = none →
    (recvRest c net req readN resHead).client.connOpen = c.connOpen := by
  unfold recvRest
  dsimp only
  split_ifs with h1 h2 h3
  · intro _; rfl
  · simp
  · simp
  · rcases hcr : net.contReadErr with _ | e <;> simp [hcr, fail_client]

theorem errCause_shape (e cause : MbError) (h : errCause e cause)
    (hc : cause ≠ .addrMatch ∧ cause ≠ .valueMatch ∧ cause ≠ .writeNMatch) :
    e ≠ .addrMatch ∧ e ≠ .valueMatch ∧ e ≠ .writeNMatch := by
  rcases h with rfl | rfl
  · exact hc
  · refine ⟨?_, ?_, ?_⟩ <;> simp

theorem recvRest_err_shape (c : TCPClient) (net : NetInput) (req : List Nat)
    (readN resHead : Nat) (e : MbError) :
    (recvRest c net req readN resHead).err = some e →
    e ≠ .addrMatch ∧ e ≠ .valueMatch ∧ e ≠ .writeNMatch := by
  unfold recvRest
  dsimp only
  split_ifs with h1 h2 h3
  · simp
  · intro he
    injection he with he1
    exact errCause_shape _ _ (he1 ▸ fail_cause _ _ _) (by refine ⟨?_, ?_, ?_⟩ <;> simp)
  · intro he
    injection he with he1
    exact errCause_shape _ _ (he1 ▸ fail_cause _ _ _) (by refine ⟨?_, ?_, ?_⟩ <;> simp)
  · rcases hcr : net.contReadErr with _ | io
    · simp
    · dsimp only
      intro he
      injection he with he1
      exact errCause_shape _ _ (he1 ▸ fail_cause _ _ _) (by refine ⟨?_, ?_, ?_⟩ <;> simp)

theorem recvRest_sent (c : TCPClient) (net : NetInput) (req : List Nat)
    (readN resHead : Nat) :
    (recvRest c net req readN resHead).sent = some req := by
  unfold recvRest
  dsimp only
  split_ifs with h1 h2 h3
  · rfl
  · rfl
  · rfl
  · rcases hcr : net.contReadErr with _ | io <;> rfl

theorem sendAndReceive_dial_fail (c : TCPClient) (net : NetInput) (q f : Nat)
    (hco : c.connOpen = false) (hd : net.dialOK = false) :
    sendAndReceive c net q f =
      { client := c, readN := 0, sent := none, err := some .dialFail } := by
  unfold sendAndReceive ensureConn
  rw [hco, hd]
  simp

theorem sendAndReceive_txN (c : TCPClient) (net : NetInput) (q f : Nat)
    (hconn : c.connOpen = true ∨ net.dialOK = true) :
    (sendAndReceive c net q f).client.txN = (c.txN + 1) % 2 ^ 64 := by
  unfold sendAndReceive
  rw [ensureConn_eq c net.dialOK hconn]
  dsimp only
  split_ifs <;> simp [fail_client, recvRest_txN]

theorem sendAndReceive_ok_connOpen (c : TCPClient) (net : NetInput)
    (q f : Nat) :
    (sendAndReceive c net q f).err = none →
    (sendAndReceive c net q f).client.connOpen = true := by
  by_cases hconn : c.connOpen = true ∨ net.dialOK = true
  · unfold sendAndReceive
    rw [ensureConn_eq c net.dialOK hconn]
    dsimp only
    split_ifs <;> try simp [fail_client]
    intro he
    rw [recvRest_ok_connOpen _ _ _ _ _ he]
  · push_neg at hconn
    rw [sendAndReceive_dial_fail c net q f (by simp [hconn.1]) (by simp [hconn.2])]
    simp

theorem sendAndReceive_err_shape (c : TCPClient) (net : NetInput)
    (q f : Nat) (e : MbError) :
    (sendAndReceive c net q f).err = some e →
    e ≠ .addrMatch ∧ e ≠ .valueMatch ∧ e ≠ .writeNMatch := by
  by_cases hconn : c.connOpen = true ∨ net.dialOK = true
  · unfold sendAndReceive
    rw [ensureConn_eq c net.dialOK hconn]
    dsimp only
    split_ifs with h1 h2 h3 h4 h5
    · intro he
      injection he with he1
      exact errCause_shape _ _ (he1 ▸ fail_cause _ _ _)
        (by refine ⟨?_, ?_, ?_⟩ <;> simp)
    · intro he
      injection he with he1
      exact errCause_shape _ _ (he1 ▸ fail_cause _ _ _)
        (by refine ⟨?_, ?_, ?_⟩ <;> simp)
    · intro he
      injection he with he1
      exact errCause_shape _ _ (he1 ▸ fail_cause _ _ _)
        (by refine ⟨?_, ?_, ?_⟩ <;> simp)
    · exact recvRest_err_shape _ _ _ _ _ e
    · intro he
      injection he with he1
      exact errCause_shape _ _ (he1 ▸ fail_cause _ _ _)
        (by refine ⟨?_, ?_, ?_⟩ <;> simp)
    · intro he
      injection he with he1
      subst he1
      refine ⟨?_, ?_, ?_⟩ <;> simp
    · intro he
      injection he with he1
      exact errCause_shape _ _ (he1 ▸ fail_cause _ _ _)
        (by refine ⟨?_, ?_, ?_⟩ <;> simp)
  · push_neg at hconn
    rw [sendAndReceive_dial_fail c net q f (by simp [hconn.1]) (by simp [hconn.2])]
    intro he
    injection he with he1
    subst he1
    refine ⟨?_, ?_, ?_⟩ <;> simp

theorem sendAndReceive_sent (c : TCPClient) (net : NetInput) (q f : Nat)
    (hconn : c.connOpen = true ∨ net.dialOK = true)
    (hdl : c.txTimeout = 0 ∨ net.deadlineOK = true) :
    (sendAndReceive c net q f).sent =
      some ((writeBytes c.buf 0
        (u64be (mkReqHead ((c.txN + 1) % 2 ^ 64) q c.unitID f))).take q) := by
  rw [sendAndReceive_tail c net q f hconn hdl]
  dsimp only
  split_ifs <;> simp [recvRest_sent]

theorem getByte_take_wb8 (buf : List Nat) (q a0 a1 a2 a3 a4 a5 a6 a7 : Nat)
    (h8 : 8 ≤ q) (hb : 8 ≤ buf.length) :
    getByte ((writeBytes buf 0 [a0, a1, a2, a3, a4, a5, a6, a7]).take q) 0 = a0 ∧
    getByte ((writeBytes buf 0 [a0, a1, a2, a3, a4, a5, a6, a7]).take q) 1 = a1 ∧
    getByte ((writeBytes buf 0 [a0, a1, a2, a3, a4, a5, a6, a7]).take q) 2 = a2 ∧
    getByte ((writeBytes buf 0 [a0, a1, a2, a3, a4, a5, a6, a7]).take q) 3 = a3 ∧
    getByte ((writeBytes buf 0 [a0, a1, a2, a3, a4, a5, a6, a7]).take q) 4 = a4 ∧
    getByte ((writeBytes buf 0 [a0, a1, a2, a3, a4, a5, a6, a7]).take q) 5 = a5 ∧
    getByte ((writeBytes buf 0 [a0, a1, a2, a3, a4, a5, a6, a7]).take q) 6 = a6 ∧
    getByte ((writeBytes buf 0 [a0, a1, a2, a3, a4, a5, a6, a7]).take q) 7 = a7 := by
  refine ⟨?_, ?_, ?_, ?_, ?_, ?_, ?_, ?_⟩
  all_goals rw [getByte_take, if_pos (by omega),
    getByte_writeBytes_lt _ _ _ (by simp) (by omega)]
  all_goals rfl

theorem header_bytes_spec (buf : List Nat) (x q u f : Nat)
    (hb : 8 ≤ buf.length) (h8 : 8 ≤ q) (hq : q ≤ 260) (hf : f < 256) :
    getU16 ((writeBytes buf 0 (u64be (mkReqHead x q u f))).take q) 0 = x % 2 ^ 16 ∧
    getU16 ((writeBytes buf 0 (u64be (mkReqHead x q u f))).take q) 2 = 0 ∧
    getU16 ((writeBytes buf 0 (u64be (mkReqHead x q u f))).take q) 4 = q - 6 ∧
    getByte ((writeBytes buf 0 (u64be (mkReqHead x q u f))).take q) 6 = u % 256 ∧
    getByte ((writeBytes buf 0 (u64be (mkReqHead x q u f))).take q) 7 = f := by
  rw [mkReqHead_eq x q u f (by omega) hq hf,
      u64be_fields (x % 2 ^ 16) (q - 6) (u % 256) f
        (by omega) (by omega) (by omega) hf]
  obtain ⟨g0, g1, g2, g3, g4, g5, g6, g7⟩ :=
    getByte_take_wb8 buf q ((x % 2 ^ 16) / 256) ((x % 2 ^ 16) % 256) 0 0
      ((q - 6) / 256) ((q - 6) % 256) (u % 256) f h8 hb
  refine ⟨?_, ?_, ?_, g6, g7⟩
  · simp only [getU16, Nat.zero_add]
    rw [g0, g1, Nat.shiftLeft_eq,
        lor_eq_add (show (x % 2 ^ 16) % 256 < 2 ^ 8 by omega)]
    omega
  · simp only [getU16, Nat.reduceAdd]
    rw [g2, g3]
    simp
  · simp only [getU16, Nat.reduceAdd]
    rw [g4, g5, Nat.shiftLeft_eq,
        lor_eq_add (show (q - 6) % 256 < 2 ^ 8 by omega)]
    omega

theorem sent_header_fields (c : TCPClient) (net : NetInput) (q f : Nat)
    (hbuf : c.buf.length = bufCap)
    (hconn : c.connOpen = true ∨ net.dialOK = true)
    (hdl : c.txTimeout = 0 ∨ net.deadlineOK = true)
    (h8 : 8 ≤ q) (hq : q ≤ bufCap) (hf : f < 256) :
    ∃ s, (sendAndReceive c net q f).sent = some s ∧
      getU16 s 0 = ((c.txN + 1) % 2 ^ 64) % 2 ^ 16 ∧
      getU16 s 2 = 0 ∧
      getU16 s 4 = q - 6 ∧
      getByte s 6 = c.unitID % 256 ∧
      getByte s 7 = f := by
  have hq260 : q ≤ 260 := by simpa [bufCap] using hq
  have hb260 : c.buf.length = 260 := by simpa [bufCap] using hbuf
  obtain ⟨g1, g2, g3, g4, g5⟩ :=
    header_bytes_spec c.buf ((c.txN + 1) % 2 ^ 64) q c.unitID f
      (by omega) h8 hq260 hf
  exact ⟨_, sendAndReceive_sent c net q f hconn hdl, g1, g2, g3, g4, g5⟩

/- ## Concrete fixtures for witnesses -/

/-- Fixture: a freshly dialed client (the state TCPDial produces). -/
def initClient : TCPClient :=
  { buf := List.replicate bufCap 0, connOpen := true, txTimeout := 0,
    txN := 0, fragN := 0, unitID := 0xff }

/-- Fixture: a disconnected client. -/
def idleClient : TCPClient := { initClient with connOpen := false }

/-- Fixture: an oracle that is never consulted. -/
def netNone : NetInput :=
  { dialOK := false, deadlineOK := false, writeOK := false, firstRead := [],
    contReadErr := none, contRead := [], closeErr := false }

/-- Fixture: a 9-byte exception response (code 2) for transaction 1. -/
def netExc : NetInput :=
  { dialOK := true, deadlineOK := true, writeOK := true,
    firstRead := [0, 1, 0, 0, 0, 3, 0xff, 0x83, 2],
    contReadErr := none, contRead := [], closeErr := false }

/-- Fixture: a regular 11-byte response carrying one register 0xBEEF. -/
def netRead1 : NetInput :=
  { dialOK := true, deadlineOK := true, writeOK := true,
    firstRead := [0, 1, 0, 0, 0, 5, 0xff, 0x03, 2, 0xBE, 0xEF],
    contReadErr := none, contRead := [], closeErr := false }

/-- Fixture: the same response fragmented after the first 9 bytes. -/
def netFrag : NetInput :=
  { dialOK := true, deadlineOK := true, writeOK := true,
    firstRead := [0, 1, 0, 0, 0, 5, 0xff, 0x03, 2],
    contReadErr := none, contRead := [0xBE, 0xEF], closeErr := false }

/-- Fixture: a write-single-register echo naming a wrong address. -/
def netWrBad : NetInput :=
  { dialOK := true, deadlineOK := true, writeOK := true,
    firstRead := [0, 1, 0, 0, 0, 6, 0xff, 0x06, 0, 6, 0, 7],
    contReadErr := none, contRead := [], closeErr := false }

/- ## Claims -/

/-- C8: Close always leaves the connection nil; on an already-nil
connection it is a no-op returning no error, so calling Close twice in a
row never errors on the second call and leaves all other state unchanged. -/
theorem C8_close_idempotent (c : TCPClient) (e1 e2 : Bool) :
    (Close c e1).1.connOpen = false ∧
    (c.connOpen = false → Close c e1 = (c, none)) ∧
    Close (Close c e1).1 e2 = ((Close c e1).1, none) := by
  have h2 : ∀ (x : TCPClient) (e : Bool), x.connOpen = false →
      Close x e = (x, none) := by
    intro x e hx
    unfold Close
    rw [if_pos hx]
  exact ⟨Close_fst_connOpen c e1, h2 c e1, h2 _ e2 (Close_fst_connOpen c e1)⟩

/-- C8 witness at a concrete disconnected client. -/
theorem C8_witness :
    (Close idleClient false).1.connOpen = false ∧
    Close idleClient false = (idleClient, none) ∧
    Close (Close idleClient false).1 true = ((Close idleClient false).1, none) := by
  have h := C8_close_idempotent idleClient false true
  exact ⟨h.1, h.2.1 rfl, h.2.2⟩

/-- C9: a negative register count makes ReadNInputRegSlice and
ReadNHoldRegSlice return (nil, nil) — success with a nil slice — with no
I/O and no state change. -/
theorem C9_negative_count (c : TCPClient) (net : NetInput) (n : Int)
    (hn : n < 0) (startAddr : Nat) :
    ReadNInputRegSlice c net n startAddr = (c, none, none) ∧
    ReadNHoldRegSlice c net n startAddr = (c, none, none) := by
  have h1 : n < 1 := by omega
  unfold ReadNInputRegSlice ReadNHoldRegSlice readNRegSlice
  refine ⟨?_, ?_⟩ <;> rw [if_pos h1]

/-- C9 witness: count -3. -/
theorem C9_witness :
    ReadNInputRegSlice initClient netNone (-3) 0 = (initClient, none, none) ∧
    ReadNHoldRegSlice initClient netNone (-3) 0 = (initClient, none, none) :=
  C9_negative_count initClient netNone (-3) (by norm_num) 0

/-- C5: limits are enforced locally: reading 0 registers is a no-op
success with no wire traffic and no state change, more than 125 read
registers or more than 123 written registers yield ErrLimit before any
I/O, and writing 0 registers is a no-op success. -/
theorem C5_count_limits (c : TCPClient) (net : NetInput) (startAddr : Nat)
    (regs : List Nat) (n : Int) (values : List Nat) :
    ReadInputRegs c net [] startAddr = (c, [], none) ∧
    ReadHoldRegs c net [] startAddr = (c, [], none) ∧
    (regs.length > 125 →
      ReadInputRegs c net regs startAddr = (c, regs, some .limit)) ∧
    (regs.length > 125 →
      ReadHoldRegs c net regs startAddr = (c, regs, some .limit)) ∧
    (n = 0 → ReadNInputRegSlice c net n startAddr = (c, none, none)) ∧
    (n = 0 → ReadNHoldRegSlice c net n startAddr = (c, none, none)) ∧
    (n > 125 → ReadNInputRegSlice c net n startAddr = (c, none, some .limit)) ∧
    (n > 125 → ReadNHoldRegSlice c net n startAddr = (c, none, some .limit)) ∧
    WriteRegs c net startAddr [] = (c, none) ∧
    (values.length > 123 → WriteRegs c net startAddr values = (c, some .limit)) := by
  refine ⟨rfl, rfl, ?_, ?_, ?_, ?_, ?_, ?_, rfl, ?_⟩
  · intro h; unfold ReadInputRegs readRegs; rw [if_neg (by omega), if_pos h]
  · intro h; unfold ReadHoldRegs readRegs; rw [if_neg (by omega), if_pos h]
  · intro h; unfold ReadNInputRegSlice readNRegSlice; rw [if_pos (by omega)]
  · intro h; unfold ReadNHoldRegSlice readNRegSlice; rw [if_pos (by omega)]
  · intro h; unfold ReadNInputRegSlice readNRegSlice
    rw [if_neg (by omega), if_pos h]
  · intro h; unfold ReadNHoldRegSlice readNRegSlice
    rw [if_neg (by omega), if_pos h]
  · intro h; unfold WriteRegs; rw [if_neg (by omega), if_pos h]

/-- C5 witness: a 126-register read, a 126-register slice read and a
124-value write are all rejected with the limit error and no side effect. -/
theorem C5_witness :
    ReadInputRegs initClient netNone (List.replicate 126 0) 0 =
      (initClient, List.replicate 126 0, some .limit) ∧
    ReadNHoldRegSlice initClient netNone 126 0 =
      (initClient, none, some .limit) ∧
    WriteRegs initClient netNone 0 (List.replicate 124 0) =
      (initClient, some .limit) := by
  have h := C5_count_limits initClient netNone 0 (List.replicate 126 0) 126
    (List.replicate 124 0)
  exact ⟨h.2.2.1 (by simp), h.2.2.2.2.2.2.1 (by norm_num),
    h.2.2.2.2.2.2.2.2.2 (by simp)⟩

theorem readRegs_err_frame (c : TCPClient) (net : NetInput) (regs : List Nat)
    (startAddr fc : Nat) (e : MbError) :
    (readRegs c net regs startAddr fc).2.2 = some e →
    (readRegs c net regs startAddr fc).2.1 = regs := by
  unfold readRegs
  split_ifs with h1 h2
  · simp
  · intro _; rfl
  · dsimp only
    rcases hr : (readNRegs c net regs.length startAddr fc).err with _ | e1
    · dsimp only; simp
    · dsimp only; intro _; rfl

/-- C10: whenever ReadInputRegs or ReadHoldRegs returns an error, the
caller-provided register buffer comes back entirely unmodified. -/
theorem C10_buf_unmodified_on_error (c : TCPClient) (net : NetInput)
    (regs : List Nat) (startAddr : Nat) (e : MbError) :
    ((ReadInputRegs c net regs startAddr).2.2 = some e →
      (ReadInputRegs c net regs startAddr).2.1 = regs) ∧
    ((ReadHoldRegs c net regs startAddr).2.2 = some e →
      (ReadHoldRegs c net regs startAddr).2.1 = regs) :=
  ⟨readRegs_err_frame c net regs startAddr readInputRegsFC e,
   readRegs_err_frame c net regs startAddr readHoldRegsFC e⟩

/-- C10 witness: a limit violation returns the 126-entry buffer untouched. -/
theorem C10_witness :
    (ReadInputRegs initClient netNone (List.replicate 126 7) 0).2.1 =
      List.replicate 126 7 := by
  have h := C10_buf_unmodified_on_error initClient netNone
    (List.replicate 126 7) 0 .limit
  exact h.1 (by decide)

/-- C2 counterexample: a WriteReg whose response echoes a wrong address
returns errAddrMatch, yet the connection stays open (Conn non-nil),
contradicting the claim that echo mismatches close the connection. -/
theorem C2_counterexample :
    (WriteReg initClient netWrBad 5 7).2 = some MbError.addrMatch ∧
    (WriteReg initClient netWrBad 5 7).1.connOpen = true := by decide

/-- C2 amended: an echo mismatch on WriteReg or WriteRegs returns the
distinct mismatch error, but the connection is left open (Conn stays
non-nil), so the next call reuses the socket rather than redialing. -/
theorem C2_amended_mismatch_not_fatal (c : TCPClient) (net : NetInput)
    (addr value startAddr : Nat) (values : List Nat) :
    ((WriteReg c net addr value).2 = some .addrMatch ∨
      (WriteReg c net addr value).2 = some .valueMatch →
      (WriteReg c net addr value).1.connOpen = true) ∧
    ((WriteRegs c net startAddr values).2 = some .addrMatch ∨
      (WriteRegs c net startAddr values).2 = some .writeNMatch →
      (WriteRegs c net startAddr values).1.connOpen = true) := by
  constructor
  · unfold WriteReg
    dsimp only
    rcases hr : (sendAndReceive
        { c with buf := writeBytes c.buf 8 (u32be (writeRegOrder addr value)) }
        net 12 writeRegFC).err with _ | e1
    · dsimp only
      intro _
      split_ifs <;> exact sendAndReceive_ok_connOpen _ net 12 writeRegFC hr
    · dsimp only
      intro h
      rcases h with h | h <;> injection h with h1 <;> subst h1
      · exact absurd rfl (sendAndReceive_err_shape _ _ _ _ _ hr).1
      · exact absurd rfl (sendAndReceive_err_shape _ _ _ _ _ hr).2.1
  · unfold WriteRegs
    split_ifs with h1 h2
    · simp
    · simp
    · dsimp only
      rcases hr : (sendAndReceive _ net (13 + 2 * values.length)
          writeRegsFC).err with _ | e1
      · dsimp only
        intro _
        split_ifs <;>
          exact sendAndReceive_ok_connOpen _ net (13 + 2 * values.length)
            writeRegsFC hr
      · dsimp only
        intro h
        rcases h with h | h <;> injection h with h1 <;> subst h1
        · exact absurd rfl (sendAndReceive_err_shape _ _ _ _ _ hr).1
        · exact absurd rfl (sendAndReceive_err_shape _ _ _ _ _ hr).2.2

/-- C2 amended witness: the wrong-address echo leaves the connection open. -/
theorem C2_amended_witness :
    (WriteReg initClient netWrBad 5 7).1.connOpen = true := by
  have h := C2_amended_mismatch_not_fatal initClient netWrBad 5 7 0 []
  exact h.1 (Or.inl (by decide))

/-- C1: when the 8 response-header bytes equal the request's header with
only the error flag 0x80 added to the function code (the 2-byte length
field ignored) and exactly 9 bytes were read, sendAndReceive returns
Exception(buf[8]) as a typed, non-fatal error and the connection stays
open; for any other read length of such an exception-shaped response the
frame-fit framing error is returned instead. -/
theorem C1_exception_response (c : TCPClient) (net : NetInput)
    (reqLen funcCode : Nat)
    (hbuf : c.buf.length = bufCap)
    (hconn : c.connOpen = true ∨ net.dialOK = true)
    (hdl : c.txTimeout = 0 ∨ net.deadlineOK = true)
    (hw : net.writeOK = true)
    (bs : List Nat) (hbs : bs = (net.firstRead.take bufCap).map (· % 256))
    (h9 : 9 ≤ bs.length)
    (hne : getU64 bs 0 &&& notSizeMask ≠
      mkReqHead ((c.txN + 1) % 2 ^ 64) reqLen c.unitID funcCode &&& notSizeMask)
    (hexc : getU64 bs 0 &&& notSizeMask =
      (mkReqHead ((c.txN + 1) % 2 ^ 64) reqLen c.unitID funcCode &&&
        notSizeMask) ||| errorFlag) :
    (bs.length = 9 →
      (sendAndReceive c net reqLen funcCode).err =
        some (.exception (getByte bs 8)) ∧
      (sendAndReceive c net reqLen funcCode).client.connOpen = true ∧
      (sendAndReceive c net reqLen funcCode).readN = 9) ∧
    (bs.length ≠ 9 →
      ∃ e, (sendAndReceive c net reqLen funcCode).err = some e ∧
        errCause e .frameFit ∧
        (sendAndReceive c net reqLen funcCode).client.connOpen = false) := by
  have hble : ((net.firstRead.take bufCap).map (· % 256)).length ≤ bufCap := by
    simp only [List.length_map, List.length_take]
    exact Nat.min_le_left _ _
  subst hbs
  rw [sendAndReceive_tail c net reqLen funcCode hconn hdl]
  dsimp only
  rw [if_neg (show ¬(net.writeOK = false) by simp [hw]),
      if_neg (show ¬(((net.firstRead.take bufCap).map (· % 256)).length < 9)
        by omega),
      getU64_first _ _ (by omega) (by rw [length_writeBytes, hbuf]; exact hble),
      if_neg hne, if_pos hexc,
      getByte_writeBytes_lt _ _ 8 (by omega)
        (by rw [length_writeBytes, hbuf]; decide)]
  constructor
  · intro h9eq
    rw [if_neg (show
        ¬(((net.firstRead.take bufCap).map (· % 256)).length ≠ 9) by omega)]
    exact ⟨rfl, rfl, h9eq⟩
  · intro hne9
    rw [if_pos hne9]
    exact ⟨_, rfl, fail_cause _ _ _, by simp [fail_client]⟩

/-- C1 witness: a concrete 9-byte exception frame with code 2 yields the
typed exception and keeps the connection; the run is fully evaluated. -/
theorem C1_witness :
    (sendAndReceive initClient netExc 12 3).err =
      some (MbError.exception 2) ∧
    (sendAndReceive initClient netExc 12 3).client.connOpen = true ∧
    (sendAndReceive initClient netExc 12 3).readN = 9 := by
  have h := (C1_exception_response initClient netExc 12 3 (by decide)
    (Or.inl rfl) (Or.inl rfl) rfl _ rfl (by decide) (by decide)
    (by decide)).1 (by decide)
  exact ⟨h.1.trans (by decide), h.2.1, h.2.2⟩

/-- C3: declared-length reconciliation for a header-matching response with
expectedEnd = length + 6 against readN bytes already read: equality
completes with no further I/O; expectedEnd below readN is a fatal
reception-exceeds-frame error; expectedEnd beyond the 260-byte buffer is a
fatal PDU-limit error; otherwise the fragment counter increments exactly
once and the remaining expectedEnd - readN bytes are read, a premature
end-of-stream becoming an incomplete-frame error wrapping unexpected-EOF
rather than a plain EOF. -/
theorem C3_length_reconciliation (c : TCPClient) (net : NetInput)
    (reqLen funcCode : Nat)
    (hbuf : c.buf.length = bufCap)
    (hconn : c.connOpen = true ∨ net.dialOK = true)
    (hdl : c.txTimeout = 0 ∨ net.deadlineOK = true)
    (hw : net.writeOK = true)
    (bs : List Nat) (hbs : bs = (net.firstRead.take bufCap).map (· % 256))
    (h9 : 9 ≤ bs.length)
    (hmatch : getU64 bs 0 &&& notSizeMask =
      mkReqHead ((c.txN + 1) % 2 ^ 64) reqLen c.unitID funcCode &&&
        notSizeMask) :
    ((getU64 bs 0 >>> 16 &&& 0xffff) + 6 = bs.length →
      (sendAndReceive c net reqLen funcCode).err = none ∧
      (sendAndReceive c net reqLen funcCode).readN = bs.length ∧
      (sendAndReceive c net reqLen funcCode).client.fragN = c.fragN ∧
      (sendAndReceive c net reqLen funcCode).client.connOpen = true) ∧
    ((getU64 bs 0 >>> 16 &&& 0xffff) + 6 < bs.length →
      (∃ e, (sendAndReceive c net reqLen funcCode).err = some e ∧
        errCause e .recvExceedsFrame) ∧
      (sendAndReceive c net reqLen funcCode).client.connOpen = false ∧
      (sendAndReceive c net reqLen funcCode).client.fragN = c.fragN) ∧
    ((getU64 bs 0 >>> 16 &&& 0xffff) + 6 > bufCap →
      (∃ e, (sendAndReceive c net reqLen funcCode).err = some e ∧
        errCause e .frameTooBig) ∧
      (sendAndReceive c net reqLen funcCode).client.connOpen = false ∧
      (sendAndReceive c net reqLen funcCode).client.fragN = c.fragN) ∧
    (bs.length < (getU64 bs 0 >>> 16 &&& 0xffff) + 6 →
      (getU64 bs 0 >>> 16 &&& 0xffff) + 6 ≤ bufCap →
      (sendAndReceive c net reqLen funcCode).client.fragN =
        (c.fragN + 1) % 2 ^ 64 ∧
      (net.contReadErr = none →
        (sendAndReceive c net reqLen funcCode).err = none ∧
        (sendAndReceive c net reqLen funcCode).readN =
          (getU64 bs 0 >>> 16 &&& 0xffff) + 6 ∧
        (sendAndReceive c net reqLen funcCode).client.connOpen = true) ∧
      (∀ io, net.contReadErr = some io →
        (∃ e, (sendAndReceive c net reqLen funcCode).err = some e ∧
          errCause e (.frameIncomplete
            (if io = .eof then IOErr.unexpectedEOF else io))) ∧
        (sendAndReceive c net reqLen funcCode).client.connOpen = false) ∧
      (net.contReadErr = some .eof →
        ∃ e, (sendAndReceive c net reqLen funcCode).err = some e ∧
          errCause e (.frameIncomplete IOErr.unexpectedEOF))) := by
  have hble : ((net.firstRead.take bufCap).map (· % 256)).length ≤ bufCap := by
    simp only [List.length_map, List.length_take]
    exact Nat.min_le_left _ _
  subst hbs
  rw [sendAndReceive_tail c net reqLen funcCode hconn hdl]
  dsimp only
  rw [if_neg (show ¬(net.writeOK = false) by simp [hw]),
      if_neg (show ¬(((net.firstRead.take bufCap).map (· % 256)).length < 9)
        by omega),
      getU64_first _ _ (by omega) (by rw [length_writeBytes, hbuf]; exact hble),
      if_pos hmatch]
  unfold recvRest
  dsimp only
  rw [length_writeBytes, length_writeBytes, hbuf]
  refine ⟨?_, ?_, ?_, ?_⟩
  · intro hE
    rw [if_pos hE]
    exact ⟨rfl, rfl, rfl, rfl⟩
  · intro hE
    rw [if_neg (by omega), if_pos hE]
    exact ⟨⟨_, rfl, fail_cause _ _ _⟩, by simp [fail_client],
      by simp [fail_client]⟩
  · intro hE
    rw [if_neg (by omega), if_neg (by omega), if_pos hE]
    exact ⟨⟨_, rfl, fail_cause _ _ _⟩, by simp [fail_client],
      by simp [fail_client]⟩
  · intro hlt hle
    rw [if_neg (by omega), if_neg (by omega), if_neg (by omega)]
    rcases hcr : net.contReadErr with _ | io
    · dsimp only
      refine ⟨rfl, fun _ => ⟨rfl, rfl, rfl⟩, ?_, ?_⟩
      · intro io hio
        simp [hcr] at hio
      · intro hio
        simp [hcr] at hio
    · dsimp only
      refine ⟨by simp [fail_client], ?_, ?_, ?_⟩
      · intro hno
        simp [hcr] at hno
      · intro io2 hio
        injection hio with hio1
        subst hio1
        exact ⟨⟨_, rfl, fail_cause _ _ _⟩, by simp [fail_client]⟩
      · intro hio
        injection hio with hio1
        subst hio1
        exact ⟨_, rfl, fail_cause _ _ _⟩

/-- C3 witness: a response fragmented after 9 bytes with declared end 11
reassembles, increments the fragment counter to exactly 1 and ends with
readN = 11 and no error. -/
theorem C3_witness :
    (sendAndReceive initClient netFrag 12 3).client.fragN = 1 ∧
    (sendAndReceive initClient netFrag 12 3).err = none ∧
    (sendAndReceive initClient netFrag 12 3).readN = 11 := by
  have h := (C3_length_reconciliation initClient netFrag 12 3 (by decide)
      (Or.inl rfl) (Or.inl rfl) rfl _ rfl (by decide) (by decide)).2.2.2
      (by decide) (by decide)
  exact ⟨h.1.trans (by decide), (h.2.1 rfl).1, (h.2.1 rfl).2.1.trans (by decide)⟩

/-- C4: the request submitted to the connection starts with the 8 header
bytes, big-endian: bytes 0-1 the low 16 bits of the transaction counter,
bytes 2-3 the zero protocol identifier, bytes 4-5 the byte count
len(req) - 6, byte 6 the unit identifier and byte 7 the function code. -/
theorem C4_request_header_encoding (c : TCPClient) (net : NetInput)
    (reqLen funcCode : Nat)
    (hbuf : c.buf.length = bufCap)
    (hconn : c.connOpen = true ∨ net.dialOK = true)
    (hdl : c.txTimeout = 0 ∨ net.deadlineOK = true)
    (h8 : 8 ≤ reqLen) (hq : reqLen ≤ bufCap) (hf : funcCode < 256) :
    ∃ s, (sendAndReceive c net reqLen funcCode).sent = some s ∧
      getU16 s 0 = ((c.txN + 1) % 2 ^ 64) % 2 ^ 16 ∧
      getU16 s 2 = 0 ∧
      getU16 s 4 = reqLen - 6 ∧
      getByte s 6 = c.unitID % 256 ∧
      getByte s 7 = funcCode :=
  sent_header_fields c net reqLen funcCode hbuf hconn hdl h8 hq hf

/-- C4 witness: the first request of a fresh client carries transaction
identifier 1, protocol identifier 0, length 6, unit id 0xff and function
code 3. -/
theorem C4_witness :
    ∃ s, (sendAndReceive initClient netRead1 12 3).sent = some s ∧
      getU16 s 0 = 1 ∧ getU16 s 2 = 0 ∧ getU16 s 4 = 6 ∧
      getByte s 6 = 255 ∧ getByte s 7 = 3 := by
  obtain ⟨s, hs, h1, h2, h3, h4, h5⟩ := C4_request_header_encoding initClient
    netRead1 12 3 (by decide) (Or.inl rfl) (Or.inl rfl) (by decide)
    (by decide) (by decide)
  exact ⟨s, hs, h1.trans (by decide), h2, h3.trans (by decide),
    h4.trans (by decide), h5⟩

/-- C7: the transaction counter is untouched when establishing the
connection fails; in every other case it increments by exactly one,
wrapping modulo 2^64; and the wire transaction identifier of the request
is the counter's low 16 bits. -/
theorem C7_transaction_counter (c : TCPClient) (net : NetInput)
    (reqLen funcCode : Nat) :
    (c.connOpen = false → net.dialOK = false →
      (sendAndReceive c net reqLen funcCode).client.txN = c.txN ∧
      (sendAndReceive c net reqLen funcCode).err = some .dialFail) ∧
    ((c.connOpen = true ∨ net.dialOK = true) →
      (sendAndReceive c net reqLen funcCode).client.txN =
        (c.txN + 1) % 2 ^ 64) ∧
    (c.buf.length = bufCap → (c.txTimeout = 0 ∨ net.deadlineOK = true) →
      (c.connOpen = true ∨ net.dialOK = true) →
      8 ≤ reqLen → reqLen ≤ bufCap → funcCode < 256 →
      ∃ s, (sendAndReceive c net reqLen funcCode).sent = some s ∧
        getU16 s 0 = ((c.txN + 1) % 2 ^ 64) % 2 ^ 16) := by
  refine ⟨?_, sendAndReceive_txN c net reqLen funcCode, ?_⟩
  · intro hco hd
    rw [sendAndReceive_dial_fail c net reqLen funcCode hco hd]
    exact ⟨rfl, rfl⟩
  · intro hbuf hdl hconn h8 hq hf
    obtain ⟨s, hs, h1, _⟩ :=
      sent_header_fields c net reqLen funcCode hbuf hconn hdl h8 hq hf
    exact ⟨s, hs, h1⟩

/-- C7 witness: a fresh client's counter becomes 1 and the wire id is 1; a
disconnected client with a failing dial keeps its counter. -/
theorem C7_witness :
    (sendAndReceive initClient netRead1 12 3).client.txN = 1 ∧
    (sendAndReceive idleClient netNone 12 3).client.txN = idleClient.txN ∧
    ∃ s, (sendAndReceive initClient netRead1 12 3).sent = some s ∧
      getU16 s 0 = 1 := by
  have h := C7_transaction_counter initClient netRead1 12 3
  have h2 := C7_transaction_counter idleClient netNone 12 3
  refine ⟨(h.2.1 (Or.inl rfl)).trans (by decide), (h2.1 rfl rfl).1, ?_⟩
  obtain ⟨s, hs, h1⟩ := h.2.2 (by decide) (Or.inl rfl) (Or.inl rfl)
    (by decide) (by decide) (by decide)
  exact ⟨s, hs, h1.trans (by decide)⟩

/-- C6: for an N-register read whose response frame completed at the
declared length, the payload byte-count field buf[8] must equal 2N and the
total frame length must equal 9 + 2N, any mismatch being rejected with the
payload-size or frame-fit error; on success a single-register read returns
the big-endian word formed from bytes 9 and 10. -/
theorem C6_read_validation (c : TCPClient) (net : NetInput)
    (n startAddr funcCode : Nat)
    (hbuf : c.buf.length = bufCap)
    (hconn : c.connOpen = true ∨ net.dialOK = true)
    (hdl : c.txTimeout = 0 ∨ net.deadlineOK = true)
    (hw : net.writeOK = true)
    (bs : List Nat) (hbs : bs = (net.firstRead.take bufCap).map (· % 256))
    (h9 : 9 ≤ bs.length)
    (hmatch : getU64 bs 0 &&& notSizeMask =
      mkReqHead ((c.txN + 1) % 2 ^ 64) 12 c.unitID funcCode &&& notSizeMask)
    (hE : (getU64 bs 0 >>> 16 &&& 0xffff) + 6 = bs.length) :
    (getByte bs 8 ≠ n * 2 →
      (readNRegs c net n startAddr funcCode).err =
        some (.payloadSize (getByte bs 8) n)) ∧
    (getByte bs 8 = n * 2 → bs.length ≠ 9 + n * 2 →
      (readNRegs c net n startAddr funcCode).err = some .frameFit) ∧
    (getByte bs 8 = n * 2 → bs.length = 9 + n * 2 →
      (readNRegs c net n startAddr funcCode).err = none) ∧
    (getByte bs 8 = 2 → bs.length = 11 →
      (readReg c net startAddr funcCode).2.1 = getU16 bs 9 ∧
      (readReg c net startAddr funcCode).2.2 = none) := by
  have hble : ((net.firstRead.take bufCap).map (· % 256)).length ≤ bufCap := by
    simp only [List.length_map, List.length_take]
    exact Nat.min_le_left _ _
  subst hbs
  refine ⟨?_, ?_, ?_, ?_⟩
  · intro hb8
    unfold readNRegs
    dsimp only
    rw [sendAndReceive_tail
        { c with buf := writeBytes c.buf 8 (u32be (readReqOrder startAddr n)) }
        net 12 funcCode hconn hdl]
    dsimp only
    rw [if_neg (show ¬(net.writeOK = false) by simp [hw]),
        if_neg (show ¬(((net.firstRead.take bufCap).map (· % 256)).length < 9)
          by omega),
        getU64_first _ _ (by omega)
          (by rw [length_writeBytes, length_writeBytes, hbuf]; exact hble),
        if_pos hmatch]
    unfold recvRest
    dsimp only
    rw [if_pos hE]
    dsimp only
    rw [getByte_writeBytes_lt _ _ 8 (by omega)
          (by rw [length_writeBytes, length_writeBytes, hbuf]; decide),
        if_pos hb8]
  · intro hb8 hlen
    unfold readNRegs
    dsimp only
    rw [sendAndReceive_tail
        { c with buf := writeBytes c.buf 8 (u32be (readReqOrder startAddr n)) }
        net 12 funcCode hconn hdl]
    dsimp only
    rw [if_neg (show ¬(net.writeOK = false) by simp [hw]),
        if_neg (show ¬(((net.firstRead.take bufCap).map (· % 256)).length < 9)
          by omega),
        getU64_first _ _ (by omega)
          (by rw [length_writeBytes, length_writeBytes, hbuf]; exact hble),
        if_pos hmatch]
    unfold recvRest
    dsimp only
    rw [if_pos hE]
    dsimp only
    rw [getByte_writeBytes_lt _ _ 8 (by omega)
          (by rw [length_writeBytes, length_writeBytes, hbuf]; decide),
        if_neg (not_not_intro hb8),
        if_pos hlen]
  · intro hb8 hlen
    unfold readNRegs
    dsimp only
    rw [sendAndReceive_tail
        { c with buf := writeBytes c.buf 8 (u32be (readReqOrder startAddr n)) }
        net 12 funcCode hconn hdl]
    dsimp only
    rw [if_neg (show ¬(net.writeOK = false) by simp [hw]),
        if_neg (show ¬(((net.firstRead.take bufCap).map (· % 256)).length < 9)
          by omega),
        getU64_first _ _ (by omega)
          (by rw [length_writeBytes, length_writeBytes, hbuf]; exact hble),
        if_pos hmatch]
    unfold recvRest
    dsimp only
    rw [if_pos hE]
    dsimp only
    rw [getByte_writeBytes_lt _ _ 8 (by omega)
          (by rw [length_writeBytes, length_writeBytes, hbuf]; decide),
        if_neg (not_not_intro hb8),
        if_neg (not_not_intro hlen)]
  · intro hb8 hlen
    unfold readReg readNRegs
    dsimp only
    rw [sendAndReceive_tail
        { c with buf := writeBytes c.buf 8 (u32be (readReqOrder startAddr 1)) }
        net 12 funcCode hconn hdl]
    dsimp only
    rw [if_neg (show ¬(net.writeOK = false) by simp [hw]),
        if_neg (show ¬(((net.firstRead.take bufCap).map (· % 256)).length < 9)
          by omega),
        getU64_first _ _ (by omega)
          (by rw [length_writeBytes, length_writeBytes, hbuf]; exact hble),
        if_pos hmatch]
    unfold recvRest
    dsimp only
    rw [if_pos hE]
    dsimp only
    rw [getByte_writeBytes_lt _ _ 8 (by omega)
          (by rw [length_writeBytes, length_writeBytes, hbuf]; decide),
        if_neg (not_not_intro (show
          getByte ((net.firstRead.take bufCap).map (· % 256)) 8 = 1 * 2
          by omega)),
        if_neg (not_not_intro (show
          ((net.firstRead.take bufCap).map (· % 256)).length = 9 + 1 * 2
          by omega))]
    dsimp only
    constructor
    · show getU16 _ 9 = getU16 ((net.firstRead.take bufCap).map (· % 256)) 9
      unfold getU16
      rw [getByte_writeBytes_lt _ _ 9 (by omega)
            (by rw [length_writeBytes, length_writeBytes, hbuf]; decide),
          getByte_writeBytes_lt _ _ (9 + 1) (by omega)
            (by rw [length_writeBytes, length_writeBytes, hbuf]; decide)]
    · rfl

/-- C6 witness: a well-formed 11-byte single-register response passes both
checks and yields the value 0xBEEF; an evaluated run confirms it. -/
theorem C6_witness :
    (ReadHoldReg initClient netRead1 7).2.1 = 0xBEEF ∧
    (ReadHoldReg initClient netRead1 7).2.2 = none := by
  have h := (C6_read_validation initClient netRead1 1 7 readHoldRegsFC
    (by decide) (Or.inl rfl) (Or.inl rfl) rfl _ rfl (by decide) (by decide)
    (by decide)).2.2.2 (by decide) (by decide)
  exact ⟨h.1.trans (by decide), h.2⟩

end Modbus
